import Mathlib

/-!
Verification development for the knowledge-graph ingestion and retrieval
engine of the `kg_app` repository.  Python sources are embedded shallowly:
pure functions become Lean functions, stateful loops become explicit
recursion over lists, external services (ArangoDB, Redis, the LLM, the
vector store, `uuid.uuid4`, `hashlib.md5`, Python's seeded `hash`) become
function parameters ("oracles"), and fallible stages return `Except`.
Machine-level randomness is represented by quantifying over the values the
random sources may produce.

Notation for Python operations used throughout:
  - `pyTake n s` models the slice `s[:n]` on code points;
  - `lastSlashComponent s` models `s.split('/')[-1] if '/' in s else s`;
  - `toHex32 n` models the 32-character lowercase hex rendering used by
    `uuid.uuid4().hex` and `hashlib.md5(...).hexdigest()` of a 128-bit value.
-/

/-- Python `s[:n]` on a string: the first `n` code points. -/
def pyTake (n : Nat) (s : String) : String :=
  String.mk (s.data.take n)

/-- Python `s[n:]` on a string: drop the first `n` code points. -/
def pyDrop (n : Nat) (s : String) : String :=
  String.mk (s.data.drop n)

/-- `source_key.split('/')[-1] if '/' in source_key else source_key`
(file_processing.py, `_build_safe_edge_id`).  The fold resets the
accumulator at every `'/'`, so it returns the suffix after the last slash,
and the whole string when no slash occurs -- exactly the two Python
branches. -/
def lastSlashComponent (s : String) : String :=
  String.mk (s.data.foldl (fun acc c => if c = '/' then [] else acc ++ [c]) [])

/-- The 32 lowercase hex digits of the low 128 bits of `n`, most significant
first: the rendering produced by `uuid.uuid4().hex` and by
`hashlib.md5(...).hexdigest()` for the 128-bit value `n`. -/
def toHex32 (n : Nat) : String :=
  String.mk ((List.range 32).map (fun i => Nat.digitChar (n / 16 ^ (31 - i) % 16)))

/-- ASCII alphanumeric test, the character class `[a-zA-Z0-9]` of
`re.sub(r'[^a-zA-Z0-9]', '', ...)`. -/
def isAsciiAlnumChar (c : Char) : Bool :=
  (('a' ≤ c && c ≤ 'z') || ('A' ≤ c && c ≤ 'Z') || ('0' ≤ c && c ≤ '9'))

/-- Whitespace matched by `\s` in the validation regex (ASCII part; the
generated keys are ASCII so wider Unicode classes never apply). -/
def isPyWhitespaceChar (c : Char) : Bool :=
  c = ' ' || c = '\t' || c = '\n' || c = '\r' || c = '\x0b' || c = '\x0c'

/-- One character of the forbidden class
`[/?#\[\]@!$&'()*+,;=\s]` in `_validate_arango_key`. -/
def isForbiddenKeyChar (c : Char) : Bool :=
  c = '/' || c = '?' || c = '#' || c = '[' || c = ']' || c = '@' ||
  c = '!' || c = '$' || c = '&' || c = '\x27' || c = '(' || c = ')' ||
  c = '*' || c = '+' || c = ',' || c = ';' || c = '=' || isPyWhitespaceChar c

/-- `FileProcessingService._validate_arango_key`: a key part is acceptable
when it is nonempty, at most 254 code points, contains no forbidden
character, and does not start with an underscore. -/
def validate_arango_key (key : String) : Bool :=
  if key.data.isEmpty || key.data.length > 254 then false
  else if key.data.any isForbiddenKeyChar then false
  else if key.data.head? = some '_' then false
  else true

/-- `FileProcessingService._generate_arango_key`.  `u` is the 128-bit value
returned by `uuid.uuid4()`; `safe_key = uuid.uuid4().hex.lower()` (already
lowercase).  A nonempty sanitized prefix is prepended with an underscore.
(When `pfx` is empty Python skips the sanitation; the result is the same
as sanitizing the empty string.) -/
def generate_arango_key (pfx : String) (u : Nat) : String :=
  let safe_key := toHex32 u
  let clean := String.mk (pfx.data.filter isAsciiAlnumChar)
  if clean.data.isEmpty then safe_key else clean ++ "_" ++ safe_key

/-- `FileProcessingService._build_safe_document_id`: sanitized collection
name, falling back to "documents", joined with a fresh uuid-hex key. -/
def build_safe_document_id (collection_name : String) (u : Nat) : String :=
  let clean := String.mk (collection_name.data.filter isAsciiAlnumChar)
  (if clean.data.isEmpty then "documents" else clean) ++ "/" ++ toHex32 u

/-- `FileProcessingService._build_safe_edge_id`.  `md5` is the external
`hashlib.md5` digest viewed as a 128-bit value; the id hashes
`f"{source_part}_{relationship}_{target_part}"` where the parts are the
final slash components of the endpoint ids. -/
def build_safe_edge_id (md5 : String → Nat) (source_key target_key relationship : String) :
    String :=
  let source_part := lastSlashComponent source_key
  let target_part := lastSlashComponent target_key
  "edges/" ++ toHex32 (md5 (source_part ++ "_" ++ relationship ++ "_" ++ target_part))

/-- The closed entity-type vocabulary of `models/paper.py`
(`Literal["person", "organization", "location", "concept", "methodology"]`). -/
inductive EntityType where
  | person
  | organization
  | location
  | concept
  | methodology
deriving DecidableEq, Repr

/-- `models/paper.py` `Entity`. Confidence is the float field modelled as a
rational. -/
structure Entity where
  text : String
  type : EntityType
  confidence : Rat
  entity_id : Option String
deriving DecidableEq, Repr

/-- `models/paper.py` `Relation`. -/
structure Relation where
  source_entity : Entity
  target_entity : Entity
  relationship : String
  confidence : Rat
  relation_id : Option String
deriving DecidableEq, Repr

/-- The string value of an entity type, as carried by the pydantic
`Literal` field. -/
def EntityType.toStr : EntityType → String
  | .person => "person"
  | .organization => "organization"
  | .location => "location"
  | .concept => "concept"
  | .methodology => "methodology"

/-- `ComplianceFilter.public_entity_types`. -/
def public_entity_types : List EntityType :=
  [.concept, .methodology, .organization]

/-- `ComplianceFilter.private_entity_types`. -/
def private_entity_types : List EntityType :=
  [.person, .location]

/-- `ComplianceFilter.sensitive_relations`. -/
def sensitive_relations : List String :=
  ["authored_by", "located_at", "contact_info"]

/-- The public-relation predicate of `ComplianceFilter.filter_content`
(shared by both branches): both endpoints public-eligible and the
relationship not sensitive. -/
def isPublicRelation (r : Relation) : Bool :=
  decide (r.source_entity.type ∈ public_entity_types) &&
  decide (r.target_entity.type ∈ public_entity_types) &&
  !decide (r.relationship ∈ sensitive_relations)

/-- The private-relation predicate of the `is_public = False` branch of
`ComplianceFilter.filter_content`: some endpoint private-only or the
relationship sensitive. -/
def isPrivateRelation (r : Relation) : Bool :=
  decide (r.source_entity.type ∈ private_entity_types) ||
  decide (r.target_entity.type ∈ private_entity_types) ||
  decide (r.relationship ∈ sensitive_relations)

/-- `ComplianceFilter.filter_content`: returns
`(public_entities, public_relations, private_entities, private_relations)`. -/
def filter_content (entities : List Entity) (relations : List Relation)
    (is_public : Bool) :
    List Entity × List Relation × List Entity × List Relation :=
  if is_public then
    (entities.filter (fun e => decide (e.type ∈ public_entity_types)),
     relations.filter isPublicRelation,
     [], [])
  else
    (entities.filter (fun e => decide (e.type ∈ public_entity_types)),
     relations.filter isPublicRelation,
     entities.filter (fun e => decide (e.type ∈ private_entity_types)),
     relations.filter isPrivateRelation)

/-- A JSON-ish property value as stored in node/edge `properties` maps. -/
inductive PropValue where
  | str (s : String)
  | bool (b : Bool)
  | num (q : Rat)
  | strList (l : List String)
  | null
deriving DecidableEq, Repr

/-- `graph_db/base.py` `Node`. -/
structure Node where
  id : String
  label : String
  properties : List (String × PropValue)
  type : String
deriving DecidableEq, Repr

/-- `graph_db/base.py` `Edge`. -/
structure Edge where
  id : String
  source_id : String
  target_id : String
  label : String
  properties : List (String × PropValue)
  type : String
deriving DecidableEq, Repr

/-- The fields of `PaperCreate` that `_store_in_graph_db` reads.
`publication_date` is carried as its already-rendered isoformat string. -/
structure PaperData where
  title : String
  authors : List String
  publication_date : Option String
  journal_or_conference : Option String
  doi : Option String
  abstract : Option String
deriving DecidableEq, Repr

/-- Optional string rendered into a property (`None` becomes JSON null). -/
def optStr : Option String → PropValue
  | some s => .str s
  | none => .null

/-- The entity node built in the two entity loops of `_store_in_graph_db`.
`priv` selects the private branch (extra `owner_id` property, `is_public`
false); `idx` is the loop index and `offset` the `entity_index` offset
(`0` for public, `len(public_entities)` for private). -/
def mkEntityNode (userId : String) (isMock priv : Bool) (offset idx : Nat)
    (nodeId : String) (e : Entity) : Node :=
  if priv then
    ⟨nodeId, pyTake 100 e.text,
     [("type", .str (e.type.toStr)),
      ("original_text", .str e.text),
      ("confidence", .num e.confidence),
      ("owner_id", .str userId),
      ("is_public", .bool false),
      ("is_mock", .bool isMock),
      ("entity_index", .num ((idx + offset : Nat) : Rat))],
     e.type.toStr⟩
  else
    ⟨nodeId, pyTake 100 e.text,
     [("type", .str (e.type.toStr)),
      ("original_text", .str e.text),
      ("confidence", .num e.confidence),
      ("is_public", .bool true),
      ("is_mock", .bool isMock),
      ("entity_index", .num ((idx + offset : Nat) : Rat))],
     e.type.toStr⟩

/-- The paper-to-entity "contains" edge built in the entity loops. -/
def mkContainsEdge (userId : String) (priv : Bool) (edgeId paperNodeId nodeId : String)
    (e : Entity) : Edge :=
  if priv then
    ⟨edgeId, paperNodeId, nodeId, "contains",
     [("confidence", .num e.confidence),
      ("owner_id", .str userId),
      ("is_public", .bool false),
      ("relation_type", .str "paper_contains_entity")],
     "contains"⟩
  else
    ⟨edgeId, paperNodeId, nodeId, "contains",
     [("confidence", .num e.confidence),
      ("is_public", .bool true),
      ("relation_type", .str "paper_contains_entity")],
     "contains"⟩

/-- One step of the entity-storing loops of `_store_in_graph_db`: for each
entity a fresh node id is drawn from the uuid stream (`uuidGen c` is the
value of the `c`-th `uuid.uuid4()` call of this ingestion), the node is
upserted (outcome given by the `nodeOk` oracle, whose return value the
Python code ignores), the `(text, visibility, index) -> id` triple is
recorded in `entity_key_map`, and a "contains" edge from the paper is
upserted (outcome `edgeOk`).  Returns the upserted nodes and edges paired
with their upsert outcomes, and the entity-map fragment in insertion
order. -/
def storeEntitiesLoop (uuidGen : Nat → Nat) (md5 : String → Nat)
    (nodeOk : Node → Bool) (edgeOk : Edge → Bool)
    (userId paperNodeId : String) (isMock priv : Bool) (offset : Nat) :
    List Entity → Nat → Nat →
    List (Node × Bool) × List (Edge × Bool) × List ((String × Bool × Nat) × String)
  | [], _, _ => ([], [], [])
  | e :: rest, idx, c =>
    let nodeId := build_safe_document_id "entities" (uuidGen c)
    let node := mkEntityNode userId isMock priv offset idx nodeId e
    let nres := nodeOk node
    let edgeId := build_safe_edge_id md5 paperNodeId nodeId "contains"
    let edge := mkContainsEdge userId priv edgeId paperNodeId nodeId e
    let eres := edgeOk edge
    let rec_ := storeEntitiesLoop uuidGen md5 nodeOk edgeOk userId paperNodeId
      isMock priv offset rest (idx + 1) (c + 1)
    ((node, nres) :: rec_.1, (edge, eres) :: rec_.2.1, ((e.text, priv, idx), nodeId) :: rec_.2.2)

/-- The relation-storing loop of `_store_in_graph_db`.  `entityMap` is the
already-complete `entity_key_map`; a relation's visibility class is
`is_private = relation in private_relations`; both endpoints are looked up
among map entries of that same visibility (first match in insertion order,
the index component being ignored, as in the Python scan over
`entity_key_map.items()`).  If either endpoint is missing the relation is
skipped and its index recorded as a warning; otherwise the relation edge is
built and upserted (outcome `edgeOk`, ignored by the Python code). -/
def storeRelationsLoop (md5 : String → Nat) (edgeOk : Edge → Bool)
    (entityMap : List ((String × Bool × Nat) × String))
    (private_relations : List Relation) :
    List Relation → Nat → List (Edge × Bool) × List Nat
  | [], _ => ([], [])
  | r :: rest, i =>
    let is_private : Bool := decide (r ∈ private_relations)
    let src? := entityMap.find? (fun p =>
      decide (p.1.1 = r.source_entity.text) && decide (p.1.2.1 = is_private))
    let tgt? := entityMap.find? (fun p =>
      decide (p.1.1 = r.target_entity.text) && decide (p.1.2.1 = is_private))
    match src?, tgt? with
    | some s, some t =>
      let edgeId := build_safe_edge_id md5 s.2 t.2 r.relationship
      let edge : Edge :=
        ⟨edgeId, s.2, t.2, pyTake 50 r.relationship,
         [("confidence", .num r.confidence),
          ("is_public", .bool (!is_private)),
          ("original_relationship", .str r.relationship),
          ("relation_index", .num ((i : Nat) : Rat))],
         pyTake 50 r.relationship⟩
      let rec_ := storeRelationsLoop md5 edgeOk entityMap private_relations rest (i + 1)
      ((edge, edgeOk edge) :: rec_.1, rec_.2)
    | _, _ =>
      let rec_ := storeRelationsLoop md5 edgeOk entityMap private_relations rest (i + 1)
      (rec_.1, i :: rec_.2)

/-- The trace of writes attempted by one `_store_in_graph_db` call: every
node/edge handed to `upsert_node`/`upsert_edge` paired with the upsert
outcome (the ArangoDB service catches its own errors and returns a bool,
which the caller ignores), the skipped-relation warnings, and the
per-document `entity_key_map`. -/
structure StoreResult where
  paperNode : Node × Bool
  entityNodes : List (Node × Bool)
  containsEdges : List (Edge × Bool)
  relationEdges : List (Edge × Bool)
  warnings : List Nat
  entityKeyMap : List ((String × Bool × Nat) × String)
deriving Repr

/-- `FileProcessingService._store_in_graph_db`.  `uuidGen` enumerates the
`uuid.uuid4()` values drawn during the call (the paper node consumes
draw 0, the `k`-th entity node draw `k+1`); `md5` is the `hashlib.md5`
digest function; `nodeOk`/`edgeOk` give each upsert's boolean outcome.
The function is total: upsert failures are returned-and-ignored, and a
relation with a missing endpoint is skipped with a warning, so the call
never raises on a per-item basis. -/
def store_in_graph_db (uuidGen : Nat → Nat) (md5 : String → Nat)
    (nodeOk : Node → Bool) (edgeOk : Edge → Bool)
    (user_id doc_id : String) (paper_data : PaperData)
    (public_entities : List Entity) (public_relations : List Relation)
    (private_entities : List Entity) (private_relations : List Relation)
    (is_public isMock : Bool) : StoreResult :=
  let paperNodeId := build_safe_document_id "papers" (uuidGen 0)
  let paperNode : Node :=
    ⟨paperNodeId, pyTake 100 paper_data.title,
     [("original_doc_id", .str doc_id),
      ("title", .str paper_data.title),
      ("authors", .strList paper_data.authors),
      ("publication_date", optStr paper_data.publication_date),
      ("journal", optStr paper_data.journal_or_conference),
      ("doi", optStr paper_data.doi),
      ("abstract", optStr paper_data.abstract),
      ("owner_id", .str user_id),
      ("is_public", .bool is_public),
      ("is_mock", .bool isMock)],
     "paper"⟩
  let paperRes := nodeOk paperNode
  let pub := storeEntitiesLoop uuidGen md5 nodeOk edgeOk user_id paperNodeId
    isMock false 0 public_entities 0 1
  let priv := storeEntitiesLoop uuidGen md5 nodeOk edgeOk user_id paperNodeId
    isMock true public_entities.length private_entities 0 (1 + public_entities.length)
  let entityMap := pub.2.2 ++ priv.2.2
  let rels := storeRelationsLoop md5 edgeOk entityMap private_relations
    (public_relations ++ private_relations) 0
  ⟨(paperNode, paperRes), pub.1 ++ priv.1, pub.2.1 ++ priv.2.1, rels.1, rels.2, entityMap⟩

/-- `models/query.py` `QueryScope`. -/
inductive QueryScope where
  | personal
  | shared
  | public
  | cross_domain
deriving DecidableEq, Repr

/-- `models/query.py` `QueryType`. -/
inductive QueryType where
  | factual
  | relational
  | comparative
  | summarization
  | recommendation
deriving DecidableEq, Repr

/-- The metadata dictionary fields of a vector-search hit that
`query_processing.py` reads.  A missing `doc_id`/`title` key is `none`
(Python `dict.get` returning `None`). -/
structure SearchMeta where
  doc_id : Option String
  title : Option String
  authors : List String
  publication_date : Option String
deriving DecidableEq, Repr

/-- One vector-search result dict: `score` (missing key modelled as `none`,
read with `result.get('score', default)`) and the `metadata` sub-dict. -/
structure SearchResult where
  score : Option Rat
  metadata : SearchMeta
deriving DecidableEq, Repr

/-- `x.get('score', 0)`: the sort key of `_search_relevant_papers`. -/
def scoreKey (r : SearchResult) : Rat :=
  r.score.getD 0

/-- Insert into a descending-by-score list, after any element of greater or
equal score: one step of a stable descending sort. -/
def insertDescByScore (r : SearchResult) : List SearchResult → List SearchResult
  | [] => [r]
  | x :: xs =>
    if scoreKey x < scoreKey r then r :: x :: xs else x :: insertDescByScore r xs

/-- `sorted(results, key=lambda x: x.get('score', 0), reverse=True)`:
stable descending sort by score, realised as stable insertion sort (later
elements are inserted after earlier ones of equal score, matching Python's
stable `sorted`). -/
def sortedByScoreDesc (l : List SearchResult) : List SearchResult :=
  l.foldl (fun acc r => insertDescByScore r acc) []

/-- The dedup loop of `_search_relevant_papers`: keep a result only when
`doc_id = result.get('metadata', {}).get('doc_id')` is truthy (present and
nonempty) and not yet seen; `seen` accumulates the kept ids. -/
def dedupeByDocId : List SearchResult → List String → List SearchResult
  | [], _ => []
  | r :: rest, seen =>
    match r.metadata.doc_id with
    | some d =>
      if d ≠ "" ∧ d ∉ seen then r :: dedupeByDocId rest (d :: seen)
      else dedupeByDocId rest seen
    | none => dedupeByDocId rest seen

/-- Whether `_search_relevant_papers` also queries the shared "public"
namespace: `scope in [QueryScope.SHARED, QueryScope.PUBLIC,
QueryScope.CROSS_DOMAIN]`. -/
def scopeIncludesPublic (scope : QueryScope) : Bool :=
  decide (scope ∈ [QueryScope.shared, QueryScope.public, QueryScope.cross_domain])

/-- The merge/dedupe/truncate logic of
`QueryProcessingService._search_relevant_papers`, applied to the hit lists
returned by the user namespace and (when the scope includes it) the public
namespace: concatenate, sort by score descending, keep the first hit of
each truthy doc id, truncate to `top_k`. -/
def search_relevant_papers (user_results public_results : List SearchResult)
    (scope : QueryScope) (top_k : Nat) : List SearchResult :=
  let results := user_results ++
    (if scopeIncludesPublic scope then public_results else [])
  (dedupeByDocId (sortedByScoreDesc results) []).take top_k

/-- Python `str(n)` for a natural number: decimal digits, most significant
first, with `str(0) = "0"`. -/
def pyStrNat (n : Nat) : String :=
  if n = 0 then "0"
  else String.mk (((Nat.digits 10 n).map Nat.digitChar).reverse)

/-- Python `str(i)` for an int: a minus sign before the digits of the
absolute value when negative. -/
def pyStrInt (i : Int) : String :=
  if i < 0 then "-" ++ pyStrNat i.natAbs else pyStrNat i.toNat

/-- `cache_key = f"query:{query.user_id}:{hash(query.query_text)}"`
(query_processing.py).  `h` is Python's per-process string `hash`. -/
def mkCacheKey (h : String → Int) (user_id query_text : String) : String :=
  "query:" ++ user_id ++ ":" ++ pyStrInt (h query_text)

/-- Auxiliary scan for Python `str.find`: first index (in code points) at
which `pat` occurs in `hay`, or `none`. -/
def findSubAux (pat : List Char) : List Char → Nat → Option Nat
  | [], i => if pat = [] then some i else none
  | c :: rest, i =>
    if pat.isPrefixOf (c :: rest) then some i else findSubAux pat rest (i + 1)

/-- Python `hay.find(pat)` returning `none` for `-1`. -/
def pyStrFind (hay pat : String) : Option Nat :=
  findSubAux pat.data hay.data 0

/-- Python `pat in hay` for strings. -/
def pyStrContains (hay pat : String) : Bool :=
  (pyStrFind hay pat).isSome

/-- `QueryProcessingService._extract_relevant_snippet`: 50 characters of
context on each side of the first occurrence of the title. -/
def extract_relevant_snippet (answer title : String) : String :=
  match pyStrFind answer title with
  | none => "Mentioned in context of: " ++ title
  | some pos =>
    let start := pos - 50
    let stop := min answer.data.length (pos + title.data.length + 50)
    pyTake (stop - start) (pyDrop start answer)

/-- `models/query.py` `Citation` (the fields set by `_extract_citations`;
`page_number` is never set there and is omitted). -/
structure Citation where
  paper_id : String
  paper_title : String
  authors : List String
  publication_date : Option String
  text_segment : String
  confidence : Rat
deriving DecidableEq, Repr

/-- `QueryProcessingService._extract_citations`: one citation per relevant
paper whose (truthy) title occurs literally in the answer. -/
def extract_citations (answer : String) (relevant_papers : List SearchResult) :
    List Citation :=
  relevant_papers.filterMap (fun paper =>
    match paper.metadata.title with
    | some title =>
      if title ≠ "" ∧ pyStrContains answer title then
        some ⟨paper.metadata.doc_id.getD "", title, paper.metadata.authors,
              paper.metadata.publication_date,
              extract_relevant_snippet answer title,
              paper.score.getD (mkRat 1 2)⟩
      else none
    | none => none)

/-- `models/query.py` `QueryResponse` (the `processed_at` timestamp, a
wall-clock value, is omitted from the embedding). -/
structure QueryResponse where
  query_id : String
  answer : String
  citations : List Citation
  confidence : Rat
  suggested_follow_up_questions : List String
deriving DecidableEq, Repr

/-- `models/query.py` `QueryCreate`. -/
structure QueryCreate where
  query_text : String
  query_type : QueryType
  scope : QueryScope
  user_id : String
deriving DecidableEq, Repr

/-- The graceful error response built by the `except` clause of
`process_query`. -/
def degradedResponse : QueryResponse :=
  ⟨"error",
   "I\x27m sorry, I encountered an error while processing your query. Please try again later.",
   [], 0, []⟩

/-- The Redis cache, keyed by strings holding serialized responses. -/
def CacheState : Type := String → Option String

/-- `cache.set(key, value, ex=3600)` (the TTL is outside the embedding). -/
def cacheSet (key value : String) (c : CacheState) : CacheState :=
  fun k => if k = key then some value else c k

/-- The collaborators of `QueryProcessingService.process_query`, each
modelled at the call boundary: a stage that can raise returns `Except`.
`pyHash` is Python's per-process string hash; `deser`/`ser` are
`QueryResponse(**json.loads(.))` and `response.json()`; `queryKG` stands
for `_query_knowledge_graph`, which catches its own exceptions and always
returns a string; `followUps` is the structured LLM call of
`_generate_follow_up_questions`, whose failure is caught locally and
yields `[]`; `setErr` is a failure of the final `cache.set`. -/
structure PipelineEnv where
  pyHash : String → Int
  deser : String → Except String QueryResponse
  ser : QueryResponse → String
  embed : String → Except String (List Rat)
  searchUser : List Rat → Except String (List SearchResult)
  searchPublic : List Rat → Except String (List SearchResult)
  buildContext : List SearchResult → Except String String
  dbIsNone : Bool
  connect : Except String Bool
  queryKG : String
  genAnswer : QueryType → String → String → Except String String
  followUps : Except String (List String)
  setErr : Option String

/-- The optional second vector search of `_search_relevant_papers`: the
public namespace is queried only when the scope includes shared content,
otherwise the contribution is empty. -/
def searchPublicStage (env : PipelineEnv) (emb : List Rat) (scope : QueryScope) :
    Except String (List SearchResult) :=
  if scopeIncludesPublic scope then env.searchPublic emb else pure []

/-- The graph-DB connection check of `process_query`: when the handle is
uninitialised a connect is attempted, and on a failed connect the code
calls the **undefined** method `_build_error_response`, which raises
`AttributeError` inside the `try` block. -/
def connectStage (env : PipelineEnv) : Except String Unit :=
  if env.dbIsNone then
    match env.connect with
    | .error e => .error e
    | .ok connected =>
      if !connected then
        .error "AttributeError: QueryProcessingService has no attribute for the error-response builder"
      else .ok ()
  else .ok ()

/-- The body of `process_query` inside its `try`: cache probe (a hit
deserializes and returns at once), then embedding, vector search over the
user namespace plus optionally the public one (merged by
`search_relevant_papers` with `top_k=10`), context building, the graph-DB
connection check, knowledge graph querying, answer generation, citation
extraction, follow-up questions (locally defaulted to `[]` on error),
response construction with confidence `0.8`, and the cache store. -/
def processQueryBody (env : PipelineEnv) (cache : CacheState) (q : QueryCreate) :
    Except String (QueryResponse × CacheState) := do
  let cache_key := mkCacheKey env.pyHash q.user_id q.query_text
  match cache cache_key with
  | some cached => do
    let r ← env.deser cached
    return (r, cache)
  | none => do
    let emb ← env.embed q.query_text
    let user_results ← env.searchUser emb
    let public_results ← searchPublicStage env emb q.scope
    let relevant_papers := search_relevant_papers user_results public_results q.scope 10
    let _context ← env.buildContext relevant_papers
    let _ ← connectStage env
    let graph_context := env.queryKG
    let answer ← env.genAnswer q.query_type _context graph_context
    let citations := extract_citations answer relevant_papers
    let follow_ups := match env.followUps with
      | .ok v => v
      | .error _ => []
    let response : QueryResponse :=
      ⟨"query_" ++ pyStrInt (env.pyHash q.query_text), answer, citations,
       mkRat 8 10, follow_ups⟩
    match env.setErr with
    | some e => throw e
    | none => return (response, cacheSet cache_key (env.ser response) cache)

/-- `QueryProcessingService.process_query`: the body wrapped in the
top-level `except Exception` that converts any raised error into the
graceful degraded response (cache untouched). -/
def process_query (env : PipelineEnv) (cache : CacheState) (q : QueryCreate) :
    QueryResponse × CacheState :=
  match processQueryBody env cache q with
  | .ok rc => rc
  | .error _ => (degradedResponse, cache)

/-- `graph_db/base.py` `GraphQueryResult`. -/
structure GraphQueryResult where
  nodes : List Node
  edges : List Edge
  execution_time : Rat
deriving DecidableEq, Repr

/-- Keys of a list in first-occurrence order, the key order of a Python
dict comprehension (also used as a deterministic stand-in for Python's
unspecified `set` iteration order, which no claim depends on). -/
def firstOccAux : List String → List String → List String
  | [], _ => []
  | k :: rest, seen =>
    if k ∈ seen then firstOccAux rest seen
    else k :: firstOccAux rest (k :: seen)

/-- `list({key(a): a for a in l}.values())`: for each key in
first-occurrence order, the last element carrying it. -/
def pyDictValues (key : α → String) (l : List α) : List α :=
  (firstOccAux (l.map key) []).filterMap
    (fun k => (l.filter (fun a => decide (key a = k))).getLast?)

/-- `"\n".join(l)` / `"sep".join(l)`. -/
def joinWith (sep : String) : List String → String
  | [] => ""
  | x :: xs => xs.foldl (fun a b => a ++ sep ++ b) x

/-- `n.properties.get('original_text', default)` where the stored value is
a string (entity nodes always store their source text there). -/
def propGetStr (props : List (String × PropValue)) (key default_ : String) : String :=
  match props.lookup key with
  | some (.str s) => s
  | _ => default_

/-- The `node_map` of `_format_triples_for_llm`: `original_text` with the
label as default, addressable both by the node id and by
`f"entities/{n.id}"` (the `update` entries take precedence, and within
each dict later nodes win, hence the reversed search order). -/
def llmNodeMapGet (nodes : List Node) (k : String) : Option String :=
  (((nodes.map (fun n => ("entities/" ++ n.id, propGetStr n.properties "original_text" n.label))).reverse
    ++ (nodes.map (fun n => (n.id, propGetStr n.properties "original_text" n.label))).reverse).find?
      (fun p => decide (p.1 = k))).map (fun p => p.2)

/-- One unquoted triple `f"({source_text}) --[{edge.label}]--> ({target_text})"`
of `_format_triples_for_llm`. -/
def mkLLMTriple (nodes : List Node) (e : Edge) : String :=
  "(" ++ ((llmNodeMapGet nodes e.source_id).getD e.source_id) ++ ") --[" ++
    e.label ++ "]--> (" ++ ((llmNodeMapGet nodes e.target_id).getD e.target_id) ++ ")"

/-- The triple collection built by
`QueryProcessingService._format_triples_for_llm`: edges whose label is
`'contains'` are skipped (`continue`) before their triple is added.  The
Python `set` only removes duplicates; it is modelled as a
first-occurrence-deduplicated list. -/
def format_triples_for_llm_triples (nodes : List Node) (edges : List Edge) :
    List String :=
  firstOccAux
    ((edges.filter (fun e => !(decide (e.label = "contains")))).map (mkLLMTriple nodes)) []

/-- `QueryProcessingService._format_triples_for_llm`: placeholder strings
for the empty cases, otherwise the header plus newline-joined triples. -/
def format_triples_for_llm (nodes : List Node) (edges : List Edge) : String :=
  if nodes.isEmpty && edges.isEmpty then
    "No structured knowledge graph context found."
  else
    let triples := format_triples_for_llm_triples nodes edges
    if triples.isEmpty then
      "No direct entity-to-entity relationships found in the graph."
    else
      "Extracted Knowledge Graph Context (Structured Triples):\n" ++ joinWith "\n" triples

/-- The full-id reconstruction of `_resolve_and_format_triples`:
`node.id` when it already contains a slash, else `f"nodes_{type}/{id}"`. -/
def nodeFullId (n : Node) : String :=
  if '/' ∈ n.id.data then n.id else "nodes_" ++ n.type ++ "/" ++ n.id

/-- One `label_map` entry of `_resolve_and_format_triples`: prefer the
node's `label`, then a truthy `properties['original_text']`, then the full
id itself. -/
def labelMapEntry (n : Node) : String × String :=
  let full_node_id := nodeFullId n
  let hrt := n.label
  let hrt := if hrt ≠ "" then hrt
    else match n.properties.lookup "original_text" with
      | some (.str s) => s
      | _ => ""
  ⟨full_node_id, if hrt ≠ "" then hrt else full_node_id⟩

/-- One quoted triple
`f'("{source_label}") --[{edge.label}]--> ("{target_label}")'` of
`_resolve_and_format_triples`, with `label_map.get(id, id)` lookups. -/
def mkQuotedTriple (label_map : List (String × String)) (e : Edge) : String :=
  "(\"" ++ (((label_map.find? (fun p => decide (p.1 = e.source_id))).map (fun p => p.2)).getD e.source_id)
    ++ "\") --[" ++ e.label ++ "]--> (\""
    ++ (((label_map.find? (fun p => decide (p.1 = e.target_id))).map (fun p => p.2)).getD e.target_id)
    ++ "\")"

/-- The list of formatted triples of the active render stage
`QueryProcessingService._resolve_and_format_triples`.  `resolve` is the
`graph_db.get_nodes_by_ids` collaborator.  Note: ALL unique edges are
rendered -- this function has no `'contains'` filter. -/
def resolveAndFormatTriplesList (resolve : List String → List Node)
    (result : GraphQueryResult) : List String :=
  let unique_nodes := pyDictValues Node.id result.nodes
  let unique_edges := pyDictValues Edge.id result.edges
  let all_full_ids := firstOccAux (unique_nodes.map nodeFullId) []
  if all_full_ids.isEmpty then []
  else
    let resolved_nodes := resolve all_full_ids
    let label_map := resolved_nodes.foldl (fun m n => labelMapEntry n :: m) []
    unique_edges.map (mkQuotedTriple label_map)

/-- `QueryProcessingService._resolve_and_format_triples`: empty string when
there are no edges or no ids to resolve, else the newline-joined triples. -/
def resolve_and_format_triples (resolve : List String → List Node)
    (result : GraphQueryResult) : String :=
  if result.edges.isEmpty then ""
  else
    let unique_nodes := pyDictValues Node.id result.nodes
    let all_full_ids := firstOccAux (unique_nodes.map nodeFullId) []
    if all_full_ids.isEmpty then ""
    else joinWith "\n" (resolveAndFormatTriplesList resolve result)

/-- An empty Redis cache. -/
def emptyCache : CacheState := fun _ => none

/-- A sample query used to exercise the pipeline on concrete runs. -/
def sampleQuery : QueryCreate := ⟨"hello", .factual, .personal, "u"⟩

/-- The response the pipeline produces under `sampleEnvAllOk` on
`sampleQuery`. -/
def sampleOkResponse : QueryResponse := ⟨"query_0", "ans", [], mkRat 8 10, []⟩

/-- A pipeline environment in which every collaborator succeeds; its
serializer writes `"blob"` and its deserializer reads it back as
`sampleOkResponse`. -/
def sampleEnvAllOk : PipelineEnv :=
  ⟨fun _ => 0, fun _ => Except.ok sampleOkResponse, fun _ => "blob",
   fun _ => Except.ok [], fun _ => Except.ok [], fun _ => Except.ok [],
   fun _ => Except.ok "ctx", false, Except.ok true, "",
   fun _ _ _ => Except.ok "ans", Except.ok [], none⟩

/-- A pipeline environment whose embedding stage raises. -/
def sampleEnvEmbedFails : PipelineEnv :=
  ⟨fun _ => 0, fun _ => Except.ok sampleOkResponse, fun _ => "blob",
   fun _ => Except.error "boom", fun _ => Except.ok [], fun _ => Except.ok [],
   fun _ => Except.ok "ctx", false, Except.ok true, "",
   fun _ _ _ => Except.ok "ans", Except.ok [], none⟩

/-- Every entity type is public-eligible or private-only, never both. -/
theorem entityType_partition (t : EntityType) :
    (t ∈ public_entity_types ∧ t ∉ private_entity_types) ∨
    (t ∈ private_entity_types ∧ t ∉ public_entity_types) := by
  cases t <;> decide

/-- Unfolding of the `is_public = False` branch of `filter_content`. -/
theorem filter_content_false (entities : List Entity) (relations : List Relation) :
    filter_content entities relations false =
      (entities.filter (fun e => decide (e.type ∈ public_entity_types)),
       relations.filter isPublicRelation,
       entities.filter (fun e => decide (e.type ∈ private_entity_types)),
       relations.filter isPrivateRelation) := rfl

/-- Unfolding of the `is_public = True` branch of `filter_content`. -/
theorem filter_content_true (entities : List Entity) (relations : List Relation) :
    filter_content entities relations true =
      (entities.filter (fun e => decide (e.type ∈ public_entity_types)),
       relations.filter isPublicRelation, [], []) := rfl

/-- The public-relation test, spelled out. -/
theorem isPublicRelation_iff (r : Relation) :
    isPublicRelation r = true ↔
      r.source_entity.type ∈ public_entity_types ∧
      r.target_entity.type ∈ public_entity_types ∧
      r.relationship ∉ sensitive_relations := by
  simp [isPublicRelation, and_assoc]

/-- The private-relation test, spelled out. -/
theorem isPrivateRelation_iff (r : Relation) :
    isPrivateRelation r = true ↔
      r.source_entity.type ∈ private_entity_types ∨
      r.target_entity.type ∈ private_entity_types ∨
      r.relationship ∈ sensitive_relations := by
  simp [isPrivateRelation, or_assoc]

/-- A relation that fails the public test satisfies the private test. -/
theorem not_public_imp_private (r : Relation) (h : isPublicRelation r ≠ true) :
    isPrivateRelation r = true := by
  rw [isPrivateRelation_iff]
  rw [Ne, isPublicRelation_iff] at h
  by_cases hs : r.source_entity.type ∈ public_entity_types
  · by_cases ht : r.target_entity.type ∈ public_entity_types
    · right; right
      by_contra hrel
      exact h ⟨hs, ht, hrel⟩
    · right; left
      rcases entityType_partition r.target_entity.type with ⟨hp, _⟩ | ⟨hp, _⟩
      · exact absurd hp ht
      · exact hp
  · left
    rcases entityType_partition r.source_entity.type with ⟨hp, _⟩ | ⟨hp, _⟩
    · exact absurd hp hs
    · exact hp

/-- C1: `ComplianceFilter.filter_content` classifies correctly: no entity in
both entity outputs; a relation is public exactly when both endpoint types
are public-eligible and its relationship is not sensitive; with
`is_public = False` every non-public relation is private; with
`is_public = True` the private outputs are empty; a sensitive relationship
never reaches the public relation output. -/
theorem filter_content_classifies (entities : List Entity)
    (relations : List Relation) (is_public : Bool) :
    (∀ e, ¬(e ∈ (filter_content entities relations is_public).1 ∧
            e ∈ (filter_content entities relations is_public).2.2.1)) ∧
    (∀ r, r ∈ (filter_content entities relations is_public).2.1 ↔
          r ∈ relations ∧ r.source_entity.type ∈ public_entity_types ∧
          r.target_entity.type ∈ public_entity_types ∧
          r.relationship ∉ sensitive_relations) ∧
    (is_public = false → ∀ r ∈ relations,
      r ∉ (filter_content entities relations is_public).2.1 →
      r ∈ (filter_content entities relations is_public).2.2.2) ∧
    (is_public = true → (filter_content entities relations is_public).2.2.1 = [] ∧
      (filter_content entities relations is_public).2.2.2 = []) ∧
    (∀ r ∈ (filter_content entities relations is_public).2.1,
      r.relationship ∉ sensitive_relations) := by
  refine ⟨?_, ?_, ?_, ?_, ?_⟩
  · intro e ⟨hpub, hpriv⟩
    cases is_public with
    | true => rw [filter_content_true] at hpriv; exact (List.not_mem_nil e) hpriv
    | false =>
      rw [filter_content_false] at hpub hpriv
      rw [List.mem_filter, decide_eq_true_eq] at hpub hpriv
      rcases entityType_partition e.type with ⟨_, h⟩ | ⟨_, h⟩
      · exact h hpriv.2
      · exact h hpub.2
  · intro r
    have hmem : r ∈ (filter_content entities relations is_public).2.1 ↔
        r ∈ relations ∧ isPublicRelation r = true := by
      cases is_public with
      | true => rw [filter_content_true]; exact List.mem_filter
      | false => rw [filter_content_false]; exact List.mem_filter
    rw [hmem, isPublicRelation_iff]
  · intro hfalse r hr hnot
    subst hfalse
    rw [filter_content_false] at hnot ⊢
    rw [List.mem_filter] at hnot ⊢
    refine ⟨hr, not_public_imp_private r ?_⟩
    intro hp
    exact hnot ⟨hr, hp⟩
  · intro htrue
    subst htrue
    rw [filter_content_true]
    exact ⟨rfl, rfl⟩
  · intro r hr
    have hmem : r ∈ relations ∧ isPublicRelation r = true := by
      cases is_public with
      | true => rw [filter_content_true] at hr; exact List.mem_filter.mp hr
      | false => rw [filter_content_false] at hr; exact List.mem_filter.mp hr
    exact ((isPublicRelation_iff r).mp hmem.2).2.2

/-- Witness for C1 at the spec's own end-to-end example: the sensitive
`authored_by` relation between "Jane Doe" (person) and "CRISPR" (concept)
of a private paper lands in the private relation output. -/
theorem filter_content_classifies_witness :
    (⟨⟨"Jane Doe", .person, 1, none⟩, ⟨"CRISPR", .concept, 1, none⟩,
      "authored_by", 1, none⟩ : Relation) ∈
      (filter_content
        [⟨"CRISPR", .concept, 1, none⟩, ⟨"Jane Doe", .person, 1, none⟩]
        [⟨⟨"Jane Doe", .person, 1, none⟩, ⟨"CRISPR", .concept, 1, none⟩,
          "authored_by", 1, none⟩] false).2.2.2 :=
  (filter_content_classifies
    [⟨"CRISPR", .concept, 1, none⟩, ⟨"Jane Doe", .person, 1, none⟩]
    [⟨⟨"Jane Doe", .person, 1, none⟩, ⟨"CRISPR", .concept, 1, none⟩,
      "authored_by", 1, none⟩] false).2.2.1 rfl _ (by decide) (by decide)

/-- String concatenation concatenates the underlying code points. -/
theorem strDataAppend (s t : String) : (s ++ t).data = s.data ++ t.data := by
  cases s; cases t; rfl

/-- The fold of `lastSlashComponent` over a slash-free list appends. -/
theorem lastSlashFold_no_slash (l : List Char) (acc : List Char) (h : '/' ∉ l) :
    l.foldl (fun acc c => if c = '/' then [] else acc ++ [c]) acc = acc ++ l := by
  induction l generalizing acc with
  | nil => simp
  | cons c rest ih =>
    rw [List.foldl_cons]
    by_cases hc : c = '/'
    · exact absurd (hc ▸ List.mem_cons_self c rest) h
    · rw [if_neg hc, ih _ (fun hm => h (List.mem_cons_of_mem c hm))]
      simp

/-- On a slash-free string the last slash component is the string itself. -/
theorem lastSlashComponent_no_slash (t : String) (h : '/' ∉ t.data) :
    lastSlashComponent t = t := by
  unfold lastSlashComponent
  rw [lastSlashFold_no_slash t.data [] h]
  cases t; rfl

/-- Everything before a final slash is discarded by `lastSlashComponent`. -/
theorem lastSlashComponent_append_slash (s t : String) :
    lastSlashComponent (s ++ "/" ++ t) = lastSlashComponent t := by
  unfold lastSlashComponent
  rw [strDataAppend, strDataAppend]
  rw [List.foldl_append, List.foldl_append]
  simp

/-- C6: `_build_safe_edge_id` is a function of exactly
`(source_id, target_id, relationship)` up to the collection prefix: two
calls whose endpoint ids agree after their last `'/'` produce the same
identifier, for every digest function `hashlib.md5` may denote.  With
`s1 = s2` and `t1 = t2` this is determinism of repeated calls. -/
theorem build_safe_edge_id_deterministic (md5 : String → Nat)
    (s1 t1 s2 t2 rel : String)
    (hs : lastSlashComponent s1 = lastSlashComponent s2)
    (ht : lastSlashComponent t1 = lastSlashComponent t2) :
    build_safe_edge_id md5 s1 t1 rel = build_safe_edge_id md5 s2 t2 rel := by
  unfold build_safe_edge_id
  rw [hs, ht]

/-- Witness for C6: ids sharing the key `abc` (resp. `def0`) under
different collection prefixes give the same edge identifier. -/
theorem build_safe_edge_id_deterministic_witness :
    build_safe_edge_id (fun s => s.data.length) "papers/abc" "entities/def0" "cites" =
      build_safe_edge_id (fun s => s.data.length) "nodes_paper/abc" "x/def0" "cites" :=
  build_safe_edge_id_deterministic (fun s => s.data.length)
    "papers/abc" "entities/def0" "nodes_paper/abc" "x/def0" "cites"
    (by decide) (by decide)

/-- Hex digits rendered by `Nat.digitChar` are storage-safe: not forbidden,
not an underscore, not a slash. -/
theorem hexDigitCharOk : ∀ d : Nat, d < 16 →
    isForbiddenKeyChar (Nat.digitChar d) = false ∧
    Nat.digitChar d ≠ '_' ∧ Nat.digitChar d ≠ '/' := by
  decide

/-- `toHex32` always renders exactly 32 characters. -/
theorem toHex32_length (n : Nat) : (toHex32 n).data.length = 32 := by
  simp [toHex32]

/-- Every character of a `toHex32` rendering is a hex digit character. -/
theorem toHex32_chars (n : Nat) :
    ∀ c ∈ (toHex32 n).data, ∃ d : Nat, d < 16 ∧ c = Nat.digitChar d := by
  intro c hc
  simp only [toHex32, List.mem_map, List.mem_range] at hc
  obtain ⟨i, _, rfl⟩ := hc
  exact ⟨n / 16 ^ (31 - i) % 16, Nat.mod_lt _ (by norm_num), rfl⟩

/-- An ASCII-alphanumeric character is storage-safe. -/
theorem alnumCharOk (c : Char) (h : isAsciiAlnumChar c = true) :
    isForbiddenKeyChar c = false ∧ c ≠ '_' := by
  constructor
  · by_contra hf
    rw [Bool.not_eq_false] at hf
    simp only [isForbiddenKeyChar, isPyWhitespaceChar, Bool.or_eq_true,
      decide_eq_true_eq, or_assoc] at hf
    rcases hf with rfl|rfl|rfl|rfl|rfl|rfl|rfl|rfl|rfl|rfl|rfl|rfl|rfl|rfl|rfl|rfl|rfl|rfl|rfl|rfl|rfl|rfl|rfl <;>
      simp [isAsciiAlnumChar] at h
  · rintro rfl
    exact absurd h (by decide)

/-- A nonempty key of at most 254 storage-safe characters whose first
character is not an underscore passes `_validate_arango_key`. -/
theorem validate_of_chars_ok (key : String)
    (hne : key.data ≠ []) (hlen : key.data.length ≤ 254)
    (hforb : ∀ c ∈ key.data, isForbiddenKeyChar c = false)
    (hhead : ∀ c, key.data.head? = some c → c ≠ '_') :
    validate_arango_key key = true := by
  obtain ⟨c, cs, hcons⟩ := List.exists_cons_of_ne_nil hne
  unfold validate_arango_key
  rw [if_neg, if_neg, if_neg]
  · intro h
    exact hhead '_' h rfl
  · rw [Bool.not_eq_true, List.any_eq_false]
    intro x hx
    rw [hforb x hx]
    exact Bool.false_ne_true
  · rw [Bool.not_eq_true, Bool.or_eq_false_iff]
    constructor
    · rw [List.isEmpty_eq_false_iff_exists_mem]
      exact ⟨c, hcons ▸ List.mem_cons_self c cs⟩
    · simpa using hlen

/-- A `toHex32` rendering passes `_validate_arango_key`. -/
theorem validate_toHex32 (n : Nat) : validate_arango_key (toHex32 n) = true := by
  have hlen := toHex32_length n
  have hne : (toHex32 n).data ≠ [] := by
    intro h; rw [h] at hlen; exact absurd hlen (by decide)
  refine validate_of_chars_ok _ hne (by rw [hlen]; decide) ?_ ?_
  · intro c hc
    obtain ⟨d, hd, rfl⟩ := toHex32_chars n c hc
    exact (hexDigitCharOk d hd).1
  · intro c hc
    obtain ⟨d, hd, rfl⟩ := toHex32_chars n c (List.mem_of_mem_head? hc)
    exact (hexDigitCharOk d hd).2.1

/-- `toHex32` renderings contain no slash. -/
theorem toHex32_no_slash (n : Nat) : '/' ∉ (toHex32 n).data := by
  intro hc
  obtain ⟨d, hd, heq⟩ := toHex32_chars n '/' hc
  exact (hexDigitCharOk d hd).2.2 heq.symm

/-- The key fragment of a `_build_safe_edge_id` identifier (the part after
the final slash, which `upsert_edge` stores as the `_key`) is the 32-hex
digest. -/
theorem build_safe_edge_id_fragment (md5 : String → Nat) (s t rel : String) :
    lastSlashComponent (build_safe_edge_id md5 s t rel) =
      toHex32 (md5 (lastSlashComponent s ++ "_" ++ rel ++ "_" ++ lastSlashComponent t)) := by
  unfold build_safe_edge_id
  have h1 : ("edges/" : String) ++
      toHex32 (md5 (lastSlashComponent s ++ "_" ++ rel ++ "_" ++ lastSlashComponent t)) =
      "edges" ++ "/" ++
      toHex32 (md5 (lastSlashComponent s ++ "_" ++ rel ++ "_" ++ lastSlashComponent t)) := rfl
  rw [h1, lastSlashComponent_append_slash, lastSlashComponent_no_slash _ (toHex32_no_slash _)]

/-- C7 (amended): every key fragment produced by the identifier generators
passes `_validate_arango_key` -- the hashed edge key and the document key
unconditionally, the prefixed node key provided the sanitized prefix keeps
the total length within 254 characters (sanitized length at most 221; the
original claim's "any prefix" fails, see the counterexample). -/
theorem generated_keys_validate :
    (∀ (md5 : String → Nat) (s t rel : String),
      validate_arango_key (lastSlashComponent (build_safe_edge_id md5 s t rel)) = true) ∧
    (∀ (collection_name : String) (u : Nat),
      validate_arango_key (lastSlashComponent (build_safe_document_id collection_name u)) = true) ∧
    (∀ (pfx : String) (u : Nat),
      (pfx.data.filter isAsciiAlnumChar).length ≤ 221 →
      validate_arango_key (generate_arango_key pfx u) = true) := by
  refine ⟨?_, ?_, ?_⟩
  · intro md5 s t rel
    rw [build_safe_edge_id_fragment]
    exact validate_toHex32 _
  · intro collection_name u
    unfold build_safe_document_id
    rw [lastSlashComponent_append_slash, lastSlashComponent_no_slash _ (toHex32_no_slash _)]
    exact validate_toHex32 _
  · intro pfx u hlen
    unfold generate_arango_key
    by_cases hempty : (String.mk (pfx.data.filter isAsciiAlnumChar)).data.isEmpty = true
    · rw [if_pos hempty]
      exact validate_toHex32 _
    · rw [if_neg hempty]
      have hdata : (String.mk (pfx.data.filter isAsciiAlnumChar) ++ "_" ++ toHex32 u).data =
          pfx.data.filter isAsciiAlnumChar ++ '_' :: (toHex32 u).data := by
        rw [strDataAppend, strDataAppend]
        simp
      have hclean : ∀ c ∈ pfx.data.filter isAsciiAlnumChar, isAsciiAlnumChar c = true :=
        fun c hc => List.of_mem_filter hc
      have hcne : pfx.data.filter isAsciiAlnumChar ≠ [] := by
        intro h
        exact hempty (by simp [h])
      obtain ⟨c, cs, hcons⟩ := List.exists_cons_of_ne_nil hcne
      refine validate_of_chars_ok _ ?_ ?_ ?_ ?_
      · rw [hdata]
        simp
      · rw [hdata, List.length_append, List.length_cons, toHex32_length]
        omega
      · rw [hdata]
        intro x hx
        rcases List.mem_append.mp hx with hx | hx
        · exact (alnumCharOk x (hclean x hx)).1
        · rcases List.mem_cons.mp hx with rfl | hx
          · decide
          · obtain ⟨d, hd, rfl⟩ := toHex32_chars u x hx
            exact (hexDigitCharOk d hd).1
      · rw [hdata, hcons]
        intro x hx
        simp only [List.cons_append, List.head?_cons, Option.some.injEq] at hx
        subst hx
        exact (alnumCharOk c (hclean c (hcons ▸ List.mem_cons_self c cs))).2

/-- Witness for C7: a sanitized five-character prefix yields a valid node
key, and a concrete edge id's fragment is valid. -/
theorem generated_keys_validate_witness :
    validate_arango_key (generate_arango_key "nodes" 5) = true ∧
    validate_arango_key
      (lastSlashComponent (build_safe_edge_id (fun s => s.data.length) "papers/a" "entities/b" "cites")) = true :=
  ⟨generated_keys_validate.2.2 "nodes" 5 (by decide),
   generated_keys_validate.1 (fun s => s.data.length) "papers/a" "entities/b" "cites"⟩

set_option maxRecDepth 20000 in
/-- Counterexample to C7 as stated: with a 222-character alphanumeric
prefix the generated node key is 255 characters long and fails
`_validate_arango_key`, so the claim's "any prefix" is false. -/
theorem generated_key_long_prefix_counterexample :
    validate_arango_key (generate_arango_key (String.mk (List.replicate 222 'a')) 0) = false := by
  decide

/-- Descending-score order between search results. -/
def scoreGE (a b : SearchResult) : Prop := scoreKey b ≤ scoreKey a

/-- Inserting into the descending list permutes `cons`. -/
theorem insertDescByScore_perm (r : SearchResult) (l : List SearchResult) :
    List.Perm (insertDescByScore r l) (r :: l) := by
  induction l with
  | nil => exact List.Perm.refl _
  | cons x xs ih =>
    unfold insertDescByScore
    by_cases h : scoreKey x < scoreKey r
    · rw [if_pos h]
    · rw [if_neg h]
      exact (ih.cons x).trans (List.Perm.swap r x xs)

/-- Inserting preserves descending order. -/
theorem insertDescByScore_pairwise (r : SearchResult) (l : List SearchResult)
    (h : List.Pairwise scoreGE l) :
    List.Pairwise scoreGE (insertDescByScore r l) := by
  induction l with
  | nil => simp [insertDescByScore, List.pairwise_cons, scoreGE]
  | cons x xs ih =>
    rw [List.pairwise_cons] at h
    unfold insertDescByScore
    by_cases hlt : scoreKey x < scoreKey r
    · rw [if_pos hlt]
      rw [List.pairwise_cons]
      refine ⟨?_, List.pairwise_cons.mpr h⟩
      intro y hy
      rcases List.mem_cons.mp hy with rfl | hy
      · exact le_of_lt hlt
      · exact le_trans (h.1 y hy) (le_of_lt hlt)
    · rw [if_neg hlt]
      rw [List.pairwise_cons]
      refine ⟨?_, ih h.2⟩
      intro y hy
      rcases List.mem_cons.mp ((insertDescByScore_perm r xs).mem_iff.mp hy) with rfl | hy
      · exact le_of_not_lt hlt
      · exact h.1 y hy

/-- The fold of the stable sort permutes into an append. -/
theorem sortedByScoreDesc_perm_aux (l acc : List SearchResult) :
    List.Perm (l.foldl (fun a r => insertDescByScore r a) acc) (l ++ acc) := by
  induction l generalizing acc with
  | nil => simp
  | cons r rest ih =>
    rw [List.foldl_cons]
    refine ((ih (insertDescByScore r acc)).trans ?_)
    refine (List.Perm.append_left rest (insertDescByScore_perm r acc)).trans ?_
    exact List.perm_middle

/-- `sorted(results, key=score, reverse=True)` is a permutation of its
input. -/
theorem sortedByScoreDesc_perm (l : List SearchResult) :
    List.Perm (sortedByScoreDesc l) l := by
  unfold sortedByScoreDesc
  exact (sortedByScoreDesc_perm_aux l []).trans (by simp)

/-- The fold of the stable sort keeps the accumulator descending. -/
theorem sortedByScoreDesc_pairwise_aux (l acc : List SearchResult)
    (h : List.Pairwise scoreGE acc) :
    List.Pairwise scoreGE (l.foldl (fun a r => insertDescByScore r a) acc) := by
  induction l generalizing acc with
  | nil => simpa
  | cons r rest ih =>
    rw [List.foldl_cons]
    exact ih _ (insertDescByScore_pairwise r acc h)

/-- The sorted result list is descending by score. -/
theorem sortedByScoreDesc_pairwise (l : List SearchResult) :
    List.Pairwise scoreGE (sortedByScoreDesc l) :=
  sortedByScoreDesc_pairwise_aux l [] List.Pairwise.nil

/-- Every result kept by the dedup loop carries a truthy `doc_id` that was
not yet seen. -/
theorem dedupeByDocId_mem (l : List SearchResult) (seen : List String) :
    ∀ r ∈ dedupeByDocId l seen,
      ∃ d, r.metadata.doc_id = some d ∧ d ≠ "" ∧ d ∉ seen := by
  induction l generalizing seen with
  | nil => intro r hr; exact absurd hr (List.not_mem_nil r)
  | cons r0 rest ih =>
    intro r hr
    unfold dedupeByDocId at hr
    cases hdoc : r0.metadata.doc_id with
    | none =>
      simp only [hdoc] at hr
      exact ih seen r hr
    | some d =>
      simp only [hdoc] at hr
      by_cases hkeep : d ≠ "" ∧ d ∉ seen
      · rw [if_pos hkeep] at hr
        rcases List.mem_cons.mp hr with rfl | hr
        · exact ⟨d, hdoc, hkeep⟩
        · obtain ⟨d', hd', hne', hnotin⟩ := ih (d :: seen) r hr
          exact ⟨d', hd', hne', fun hmem => hnotin (List.mem_cons_of_mem d hmem)⟩
      · rw [if_neg hkeep] at hr
        exact ih seen r hr

/-- The dedup loop keeps each document id at most once. -/
theorem dedupeByDocId_pairwise (l : List SearchResult) (seen : List String) :
    List.Pairwise (fun a b => a.metadata.doc_id ≠ b.metadata.doc_id)
      (dedupeByDocId l seen) := by
  induction l generalizing seen with
  | nil => exact List.Pairwise.nil
  | cons r0 rest ih =>
    unfold dedupeByDocId
    cases hdoc : r0.metadata.doc_id with
    | none => simp only [hdoc]; exact ih seen
    | some d =>
      simp only [hdoc]
      by_cases hkeep : d ≠ "" ∧ d ∉ seen
      · rw [if_pos hkeep]
        rw [List.pairwise_cons]
        refine ⟨?_, ih (d :: seen)⟩
        intro b hb
        obtain ⟨d', hd', _, hnotin⟩ := dedupeByDocId_mem rest (d :: seen) b hb
        rw [hdoc, hd']
        intro hcontra
        injection hcontra with h
        exact hnotin (h ▸ List.mem_cons_self d seen)
      · rw [if_neg hkeep]
        exact ih seen

/-- On a descending input, each kept result's score dominates every input
entry sharing its document id. -/
theorem dedupeByDocId_max_score (l : List SearchResult) (seen : List String)
    (hsorted : List.Pairwise scoreGE l) :
    ∀ r ∈ dedupeByDocId l seen, ∀ s ∈ l,
      s.metadata.doc_id = r.metadata.doc_id → scoreKey s ≤ scoreKey r := by
  induction l generalizing seen with
  | nil => intro r hr; exact absurd hr (List.not_mem_nil r)
  | cons r0 rest ih =>
    rw [List.pairwise_cons] at hsorted
    intro r hr s hs heq
    unfold dedupeByDocId at hr
    cases hdoc : r0.metadata.doc_id with
    | none =>
      simp only [hdoc] at hr
      rcases List.mem_cons.mp hs with rfl | hs
      · obtain ⟨d', hd', _, _⟩ := dedupeByDocId_mem rest seen r hr
        rw [hd'] at heq
        exact absurd (hdoc.symm.trans heq) (by simp)
      · exact ih seen hsorted.2 r hr s hs heq
    | some d =>
      simp only [hdoc] at hr
      by_cases hkeep : d ≠ "" ∧ d ∉ seen
      · rw [if_pos hkeep] at hr
        rcases List.mem_cons.mp hr with rfl | hr
        · rcases List.mem_cons.mp hs with rfl | hs
          · exact le_refl _
          · exact hsorted.1 s hs
        · obtain ⟨d', hd', _, hnotin⟩ := dedupeByDocId_mem rest (d :: seen) r hr
          rcases List.mem_cons.mp hs with rfl | hs
          · rw [hd', hdoc] at heq
            injection heq with h
            exact absurd (h ▸ List.mem_cons_self d seen) hnotin
          · exact ih (d :: seen) hsorted.2 r hr s hs heq
      · rw [if_neg hkeep] at hr
        obtain ⟨d', hd', hne', hnotin⟩ := dedupeByDocId_mem rest seen r hr
        rcases List.mem_cons.mp hs with rfl | hs
        · rw [hd', hdoc] at heq
          injection heq with h
          subst h
          rcases not_and_or.mp hkeep with h | h
          · exact absurd (not_not.mp h) hne'
          · exact absurd (not_not.mp h) hnotin
        · exact ih seen hsorted.2 r hr s hs heq

/-- C5: the merged ranked list of `_search_relevant_papers` contains each
document id at most once, each kept entry's score dominates every combined
input entry sharing its document id (the first occurrence in
descending-score order wins), and the list is truncated to `top_k`. -/
theorem search_relevant_papers_merge (user_results public_results : List SearchResult)
    (scope : QueryScope) (top_k : Nat) :
    List.Pairwise (fun a b => a.metadata.doc_id ≠ b.metadata.doc_id)
      (search_relevant_papers user_results public_results scope top_k) ∧
    (∀ r ∈ search_relevant_papers user_results public_results scope top_k,
      ∀ s ∈ user_results ++ (if scopeIncludesPublic scope then public_results else []),
        s.metadata.doc_id = r.metadata.doc_id → scoreKey s ≤ scoreKey r) ∧
    (search_relevant_papers user_results public_results scope top_k).length ≤ top_k := by
  unfold search_relevant_papers
  refine ⟨?_, ?_, ?_⟩
  · exact List.Pairwise.sublist (List.take_sublist _ _) (dedupeByDocId_pairwise _ [])
  · intro r hr s hs heq
    exact dedupeByDocId_max_score _ [] (sortedByScoreDesc_pairwise _) r
      ((List.take_sublist _ _).subset hr) s
      ((sortedByScoreDesc_perm _).mem_iff.mpr hs) heq
  · rw [List.length_take]
    exact min_le_left _ _

/-- Witness for C5: a document present in both namespaces with scores 1/2
(user namespace) and 1 (public namespace) keeps the higher score. -/
theorem search_relevant_papers_merge_witness :
    scoreKey ⟨some (mkRat 1 2), ⟨some "d1", some "T1", [], none⟩⟩ ≤
      scoreKey ⟨some 1, ⟨some "d1", some "T1", [], none⟩⟩ :=
  (search_relevant_papers_merge
      [⟨some (mkRat 1 2), ⟨some "d1", some "T1", [], none⟩⟩]
      [⟨some 1, ⟨some "d1", some "T1", [], none⟩⟩]
      QueryScope.public 10).2.1
    ⟨some 1, ⟨some "d1", some "T1", [], none⟩⟩ (by decide)
    ⟨some (mkRat 1 2), ⟨some "d1", some "T1", [], none⟩⟩ (by decide) (by decide)

/-- C10: every result surviving the merge of `_search_relevant_papers`
carries a present, nonempty metadata `doc_id`; results without one are
silently dropped before context building or citation extraction. -/
theorem search_relevant_papers_doc_id (user_results public_results : List SearchResult)
    (scope : QueryScope) (top_k : Nat) :
    ∀ r ∈ search_relevant_papers user_results public_results scope top_k,
      ∃ d, r.metadata.doc_id = some d ∧ d ≠ "" := by
  intro r hr
  obtain ⟨d, hd, hne, _⟩ :=
    dedupeByDocId_mem _ [] r ((List.take_sublist _ _).subset hr)
  exact ⟨d, hd, hne⟩

/-- Witness for C10: with one result lacking a `doc_id` and one carrying
`"d2"`, the survivor's id is the nonempty `"d2"`. -/
theorem search_relevant_papers_doc_id_witness :
    ∃ d, (⟨some 1, ⟨some "d2", none, [], none⟩⟩ : SearchResult).metadata.doc_id = some d ∧
      d ≠ "" :=
  search_relevant_papers_doc_id
    [⟨some 2, ⟨none, none, [], none⟩⟩, ⟨some 1, ⟨some "d2", none, [], none⟩⟩] []
    QueryScope.personal 10
    ⟨some 1, ⟨some "d2", none, [], none⟩⟩ (by decide)

/-- Every relation edge produced by the relation loop has both endpoint
ids recorded in the entity map under the same visibility flag that the
edge itself carries (`is_public = not is_private`). -/
theorem storeRelationsLoop_sound (md5 : String → Nat) (edgeOk : Edge → Bool)
    (entityMap : List ((String × Bool × Nat) × String))
    (private_relations rs : List Relation) (i : Nat) :
    ∀ p ∈ (storeRelationsLoop md5 edgeOk entityMap private_relations rs i).1,
      ∃ (b : Bool) (tS : String) (iS : Nat) (tT : String) (iT : Nat),
        p.1.properties.lookup "is_public" = some (.bool (!b)) ∧
        ((tS, b, iS), p.1.source_id) ∈ entityMap ∧
        ((tT, b, iT), p.1.target_id) ∈ entityMap := by
  induction rs generalizing i with
  | nil => intro p hp; exact absurd hp (List.not_mem_nil p)
  | cons r rest ih =>
    intro p hp
    unfold storeRelationsLoop at hp
    cases hsrc : entityMap.find? (fun q =>
        decide (q.1.1 = r.source_entity.text) &&
        decide (q.1.2.1 = decide (r ∈ private_relations))) with
    | none =>
      simp only [hsrc] at hp
      exact ih (i + 1) p hp
    | some s =>
      cases htgt : entityMap.find? (fun q =>
          decide (q.1.1 = r.target_entity.text) &&
          decide (q.1.2.1 = decide (r ∈ private_relations))) with
      | none =>
        simp only [hsrc, htgt] at hp
        exact ih (i + 1) p hp
      | some t =>
        simp only [hsrc, htgt] at hp
        rcases List.mem_cons.mp hp with rfl | hp
        · have hsprop := List.find?_some hsrc
          have htprop := List.find?_some htgt
          rw [Bool.and_eq_true, decide_eq_true_eq, decide_eq_true_eq] at hsprop htprop
          have hsmem := List.mem_of_find?_eq_some hsrc
          have htmem := List.mem_of_find?_eq_some htgt
          refine ⟨decide (r ∈ private_relations), s.1.1, s.1.2.2, t.1.1, t.1.2.2, rfl, ?_, ?_⟩
          · have : ((s.1.1, decide (r ∈ private_relations), s.1.2.2), s.2) = s := by
              rw [← hsprop.2]
            rw [this]
            exact hsmem
          · have : ((t.1.1, decide (r ∈ private_relations), t.1.2.2), t.2) = t := by
              rw [← htprop.2]
            rw [this]
            exact htmem
        · exact ih (i + 1) p hp

/-- Every relation is either stored as an edge or recorded as a warning:
the loop never drops a relation silently and never raises. -/
theorem storeRelationsLoop_total (md5 : String → Nat) (edgeOk : Edge → Bool)
    (entityMap : List ((String × Bool × Nat) × String))
    (private_relations rs : List Relation) (i : Nat) :
    (storeRelationsLoop md5 edgeOk entityMap private_relations rs i).1.length +
      (storeRelationsLoop md5 edgeOk entityMap private_relations rs i).2.length =
      rs.length := by
  induction rs generalizing i with
  | nil => rfl
  | cons r rest ih =>
    unfold storeRelationsLoop
    cases hsrc : entityMap.find? (fun q =>
        decide (q.1.1 = r.source_entity.text) &&
        decide (q.1.2.1 = decide (r ∈ private_relations))) with
    | none =>
      simp only [hsrc, List.length_cons]
      rw [Nat.add_succ, ih (i + 1)]
    | some s =>
      cases htgt : entityMap.find? (fun q =>
          decide (q.1.1 = r.target_entity.text) &&
          decide (q.1.2.1 = decide (r ∈ private_relations))) with
      | none =>
        simp only [hsrc, htgt, List.length_cons]
        rw [Nat.add_succ, ih (i + 1)]
      | some t =>
        simp only [hsrc, htgt, List.length_cons]
        rw [Nat.succ_add, ih (i + 1)]

/-- C2: in `_store_in_graph_db`, every created relation edge has both its
source and target identifiers recorded in this call's `entity_key_map`
under the relation's own visibility class (the flag matching the edge's
`is_public` property), and every relation in the combined public+private
list either yields exactly one edge or is skipped with a warning -- never
an exception. -/
theorem store_in_graph_db_relation_endpoints (uuidGen : Nat → Nat) (md5 : String → Nat)
    (nodeOk : Node → Bool) (edgeOk : Edge → Bool) (user_id doc_id : String)
    (paper_data : PaperData) (public_entities : List Entity)
    (public_relations : List Relation) (private_entities : List Entity)
    (private_relations : List Relation) (is_public isMock : Bool) :
    (∀ p ∈ (store_in_graph_db uuidGen md5 nodeOk edgeOk user_id doc_id paper_data
        public_entities public_relations private_entities private_relations
        is_public isMock).relationEdges,
      ∃ (b : Bool) (tS : String) (iS : Nat) (tT : String) (iT : Nat),
        p.1.properties.lookup "is_public" = some (.bool (!b)) ∧
        ((tS, b, iS), p.1.source_id) ∈
          (store_in_graph_db uuidGen md5 nodeOk edgeOk user_id doc_id paper_data
            public_entities public_relations private_entities private_relations
            is_public isMock).entityKeyMap ∧
        ((tT, b, iT), p.1.target_id) ∈
          (store_in_graph_db uuidGen md5 nodeOk edgeOk user_id doc_id paper_data
            public_entities public_relations private_entities private_relations
            is_public isMock).entityKeyMap) ∧
    (store_in_graph_db uuidGen md5 nodeOk edgeOk user_id doc_id paper_data
        public_entities public_relations private_entities private_relations
        is_public isMock).relationEdges.length +
      (store_in_graph_db uuidGen md5 nodeOk edgeOk user_id doc_id paper_data
        public_entities public_relations private_entities private_relations
        is_public isMock).warnings.length =
      (public_relations ++ private_relations).length := by
  constructor
  · intro p hp
    exact storeRelationsLoop_sound md5 edgeOk _ private_relations
      (public_relations ++ private_relations) 0 p hp
  · exact storeRelationsLoop_total md5 edgeOk _ private_relations
      (public_relations ++ private_relations) 0

/-- Witness for C2 at a concrete ingestion: one public entity (CRISPR), one
public relation between CRISPR and itself; the stored edge count plus
warnings equals the relation count. -/
theorem store_in_graph_db_relation_endpoints_witness :
    (store_in_graph_db (fun _ => 0) (fun _ => 0) (fun _ => true) (fun _ => true)
      "u1" "d1" ⟨"T", [], none, none, none, none⟩
      [⟨"CRISPR", .concept, 1, none⟩]
      [⟨⟨"CRISPR", .concept, 1, none⟩, ⟨"CRISPR", .concept, 1, none⟩, "related_to", 1, none⟩]
      [] [] false false).relationEdges.length +
    (store_in_graph_db (fun _ => 0) (fun _ => 0) (fun _ => true) (fun _ => true)
      "u1" "d1" ⟨"T", [], none, none, none, none⟩
      [⟨"CRISPR", .concept, 1, none⟩]
      [⟨⟨"CRISPR", .concept, 1, none⟩, ⟨"CRISPR", .concept, 1, none⟩, "related_to", 1, none⟩]
      [] [] false false).warnings.length = 1 :=
  (store_in_graph_db_relation_endpoints (fun _ => 0) (fun _ => 0) (fun _ => true)
    (fun _ => true) "u1" "d1" ⟨"T", [], none, none, none, none⟩
    [⟨"CRISPR", .concept, 1, none⟩]
    [⟨⟨"CRISPR", .concept, 1, none⟩, ⟨"CRISPR", .concept, 1, none⟩, "related_to", 1, none⟩]
    [] [] false false).2

/-- The entity loop's attempted writes and its map fragment do not depend
on the upsert outcomes: failures are ignored and the loop continues. -/
theorem storeEntitiesLoop_oracle_free (uuidGen : Nat → Nat) (md5 : String → Nat)
    (nodeOk₁ nodeOk₂ : Node → Bool) (edgeOk₁ edgeOk₂ : Edge → Bool)
    (userId paperNodeId : String) (isMock priv : Bool) (offset : Nat)
    (es : List Entity) (idx c : Nat) :
    (storeEntitiesLoop uuidGen md5 nodeOk₁ edgeOk₁ userId paperNodeId isMock priv
        offset es idx c).1.map Prod.fst =
      (storeEntitiesLoop uuidGen md5 nodeOk₂ edgeOk₂ userId paperNodeId isMock priv
        offset es idx c).1.map Prod.fst ∧
    (storeEntitiesLoop uuidGen md5 nodeOk₁ edgeOk₁ userId paperNodeId isMock priv
        offset es idx c).2.1.map Prod.fst =
      (storeEntitiesLoop uuidGen md5 nodeOk₂ edgeOk₂ userId paperNodeId isMock priv
        offset es idx c).2.1.map Prod.fst ∧
    (storeEntitiesLoop uuidGen md5 nodeOk₁ edgeOk₁ userId paperNodeId isMock priv
        offset es idx c).2.2 =
      (storeEntitiesLoop uuidGen md5 nodeOk₂ edgeOk₂ userId paperNodeId isMock priv
        offset es idx c).2.2 := by
  induction es generalizing idx c with
  | nil => exact ⟨rfl, rfl, rfl⟩
  | cons e rest ih =>
    unfold storeEntitiesLoop
    dsimp only
    obtain ⟨h1, h2, h3⟩ := ih (idx + 1) (c + 1)
    exact ⟨by simp only [List.map_cons, h1], by simp only [List.map_cons, h2],
           by rw [h3]⟩

/-- The entity loop processes every entity: one node, one contains edge and
one map entry per entity, regardless of upsert outcomes. -/
theorem storeEntitiesLoop_length (uuidGen : Nat → Nat) (md5 : String → Nat)
    (nodeOk : Node → Bool) (edgeOk : Edge → Bool)
    (userId paperNodeId : String) (isMock priv : Bool) (offset : Nat)
    (es : List Entity) (idx c : Nat) :
    (storeEntitiesLoop uuidGen md5 nodeOk edgeOk userId paperNodeId isMock priv
        offset es idx c).1.length = es.length ∧
    (storeEntitiesLoop uuidGen md5 nodeOk edgeOk userId paperNodeId isMock priv
        offset es idx c).2.1.length = es.length := by
  induction es generalizing idx c with
  | nil => exact ⟨rfl, rfl⟩
  | cons e rest ih =>
    unfold storeEntitiesLoop
    dsimp only
    obtain ⟨h1, h2⟩ := ih (idx + 1) (c + 1)
    exact ⟨by simp only [List.length_cons, h1], by simp only [List.length_cons, h2]⟩

/-- The relation loop's attempted edges and warnings do not depend on the
upsert outcomes. -/
theorem storeRelationsLoop_oracle_free (md5 : String → Nat)
    (edgeOk₁ edgeOk₂ : Edge → Bool)
    (entityMap : List ((String × Bool × Nat) × String))
    (private_relations rs : List Relation) (i : Nat) :
    (storeRelationsLoop md5 edgeOk₁ entityMap private_relations rs i).1.map Prod.fst =
      (storeRelationsLoop md5 edgeOk₂ entityMap private_relations rs i).1.map Prod.fst ∧
    (storeRelationsLoop md5 edgeOk₁ entityMap private_relations rs i).2 =
      (storeRelationsLoop md5 edgeOk₂ entityMap private_relations rs i).2 := by
  induction rs generalizing i with
  | nil => exact ⟨rfl, rfl⟩
  | cons r rest ih =>
    unfold storeRelationsLoop
    dsimp only
    obtain ⟨h1, h2⟩ := ih (i + 1)
    cases hsrc : entityMap.find? (fun q =>
        decide (q.1.1 = r.source_entity.text) &&
        decide (q.1.2.1 = decide (r ∈ private_relations))) with
    | none =>
      cases htgt : entityMap.find? (fun q =>
          decide (q.1.1 = r.target_entity.text) &&
          decide (q.1.2.1 = decide (r ∈ private_relations))) with
      | none => simp only [hsrc, htgt]; exact ⟨h1, by rw [h2]⟩
      | some t => simp only [hsrc, htgt]; exact ⟨h1, by rw [h2]⟩
    | some s =>
      cases htgt : entityMap.find? (fun q =>
          decide (q.1.1 = r.target_entity.text) &&
          decide (q.1.2.1 = decide (r ∈ private_relations))) with
      | none => simp only [hsrc, htgt]; exact ⟨h1, by rw [h2]⟩
      | some t =>
        simp only [hsrc, htgt]
        exact ⟨by simp only [List.map_cons, h1], h2⟩

/-- C3 (amended): in `_store_in_graph_db` no upsert failure is fatal -- not
even the paper node's.  The ArangoDB service catches its own errors and
returns `False`, and the caller ignores every return value, so the set of
attempted writes, the warnings and the entity map are identical whatever
the upsert outcomes, every entity is processed (one node, one contains
edge), and every relation is stored or warned about.  (The original
claim's "failure to upsert the paper node itself is fatal to the call" is
refuted by the counterexample.) -/
theorem store_in_graph_db_ignores_upsert_failures (uuidGen : Nat → Nat)
    (md5 : String → Nat) (nodeOk₁ nodeOk₂ : Node → Bool)
    (edgeOk₁ edgeOk₂ : Edge → Bool) (user_id doc_id : String)
    (paper_data : PaperData) (public_entities : List Entity)
    (public_relations : List Relation) (private_entities : List Entity)
    (private_relations : List Relation) (is_public isMock : Bool) :
    ((store_in_graph_db uuidGen md5 nodeOk₁ edgeOk₁ user_id doc_id paper_data
        public_entities public_relations private_entities private_relations
        is_public isMock).entityNodes.map Prod.fst =
      (store_in_graph_db uuidGen md5 nodeOk₂ edgeOk₂ user_id doc_id paper_data
        public_entities public_relations private_entities private_relations
        is_public isMock).entityNodes.map Prod.fst) ∧
    ((store_in_graph_db uuidGen md5 nodeOk₁ edgeOk₁ user_id doc_id paper_data
        public_entities public_relations private_entities private_relations
        is_public isMock).containsEdges.map Prod.fst =
      (store_in_graph_db uuidGen md5 nodeOk₂ edgeOk₂ user_id doc_id paper_data
        public_entities public_relations private_entities private_relations
        is_public isMock).containsEdges.map Prod.fst) ∧
    ((store_in_graph_db uuidGen md5 nodeOk₁ edgeOk₁ user_id doc_id paper_data
        public_entities public_relations private_entities private_relations
        is_public isMock).relationEdges.map Prod.fst =
      (store_in_graph_db uuidGen md5 nodeOk₂ edgeOk₂ user_id doc_id paper_data
        public_entities public_relations private_entities private_relations
        is_public isMock).relationEdges.map Prod.fst) ∧
    ((store_in_graph_db uuidGen md5 nodeOk₁ edgeOk₁ user_id doc_id paper_data
        public_entities public_relations private_entities private_relations
        is_public isMock).warnings =
      (store_in_graph_db uuidGen md5 nodeOk₂ edgeOk₂ user_id doc_id paper_data
        public_entities public_relations private_entities private_relations
        is_public isMock).warnings) ∧
    ((store_in_graph_db uuidGen md5 nodeOk₁ edgeOk₁ user_id doc_id paper_data
        public_entities public_relations private_entities private_relations
        is_public isMock).entityNodes.length =
      public_entities.length + private_entities.length) ∧
    ((store_in_graph_db uuidGen md5 nodeOk₁ edgeOk₁ user_id doc_id paper_data
        public_entities public_relations private_entities private_relations
        is_public isMock).containsEdges.length =
      public_entities.length + private_entities.length) := by
  unfold store_in_graph_db
  dsimp only
  obtain ⟨hp1, hp2, hp3⟩ := storeEntitiesLoop_oracle_free uuidGen md5 nodeOk₁ nodeOk₂
    edgeOk₁ edgeOk₂ user_id (build_safe_document_id "papers" (uuidGen 0)) isMock false 0
    public_entities 0 1
  obtain ⟨hq1, hq2, hq3⟩ := storeEntitiesLoop_oracle_free uuidGen md5 nodeOk₁ nodeOk₂
    edgeOk₁ edgeOk₂ user_id (build_safe_document_id "papers" (uuidGen 0)) isMock true
    public_entities.length private_entities 0 (1 + public_entities.length)
  obtain ⟨hr1, hr2⟩ := storeRelationsLoop_oracle_free md5 edgeOk₁ edgeOk₂
    ((storeEntitiesLoop uuidGen md5 nodeOk₂ edgeOk₂ user_id
        (build_safe_document_id "papers" (uuidGen 0)) isMock false 0
        public_entities 0 1).2.2 ++
      (storeEntitiesLoop uuidGen md5 nodeOk₂ edgeOk₂ user_id
        (build_safe_document_id "papers" (uuidGen 0)) isMock true
        public_entities.length private_entities 0 (1 + public_entities.length)).2.2)
    private_relations (public_relations ++ private_relations) 0
  obtain ⟨hl1, hl2⟩ := storeEntitiesLoop_length uuidGen md5 nodeOk₁ edgeOk₁ user_id
    (build_safe_document_id "papers" (uuidGen 0)) isMock false 0 public_entities 0 1
  obtain ⟨hl3, hl4⟩ := storeEntitiesLoop_length uuidGen md5 nodeOk₁ edgeOk₁ user_id
    (build_safe_document_id "papers" (uuidGen 0)) isMock true public_entities.length
    private_entities 0 (1 + public_entities.length)
  refine ⟨?_, ?_, ?_, ?_, ?_, ?_⟩
  · rw [List.map_append, List.map_append, hp1, hq1]
  · rw [List.map_append, List.map_append, hp2, hq2]
  · rw [hp3, hq3]
    exact hr1
  · rw [hp3, hq3]
    exact hr2
  · rw [List.length_append, hl1, hl3]
  · rw [List.length_append, hl2, hl4]

/-- Witness for C3's amended theorem: with all upserts failing versus all
succeeding, the ingestion of one public entity attempts the same single
entity node. -/
theorem store_in_graph_db_ignores_upsert_failures_witness :
    (store_in_graph_db (fun _ => 0) (fun _ => 0) (fun _ => false) (fun _ => false)
      "u1" "d1" ⟨"T", [], none, none, none, none⟩
      [⟨"CRISPR", .concept, 1, none⟩] [] [] [] true false).entityNodes.length = 1 :=
  (store_in_graph_db_ignores_upsert_failures (fun _ => 0) (fun _ => 0)
    (fun _ => false) (fun _ => true) (fun _ => false) (fun _ => true)
    "u1" "d1" ⟨"T", [], none, none, none, none⟩
    [⟨"CRISPR", .concept, 1, none⟩] [] [] [] true false).2.2.2.2.1

/-- Counterexample to C3 as stated: when the paper node's upsert fails
(the oracle returns `False` exactly on nodes of type `"paper"`, as
`ArangoDBService.upsert_node` does on an ArangoDB error), the ingestion is
NOT aborted: the entity node and its contains edge are still attempted and
the call completes normally, so the paper-node failure is not fatal. -/
theorem store_paper_failure_not_fatal_counterexample :
    ((store_in_graph_db (fun _ => 0) (fun _ => 0)
        (fun n => !(n.type == "paper")) (fun _ => true)
        "u1" "d1" ⟨"T", [], none, none, none, none⟩
        [⟨"CRISPR", .concept, 1, none⟩] [] [] [] true false).paperNode.2 = false) ∧
    ((store_in_graph_db (fun _ => 0) (fun _ => 0)
        (fun n => !(n.type == "paper")) (fun _ => true)
        "u1" "d1" ⟨"T", [], none, none, none, none⟩
        [⟨"CRISPR", .concept, 1, none⟩] [] [] [] true false).entityNodes.length = 1) ∧
    ((store_in_graph_db (fun _ => 0) (fun _ => 0)
        (fun n => !(n.type == "paper")) (fun _ => true)
        "u1" "d1" ⟨"T", [], none, none, none, none⟩
        [⟨"CRISPR", .concept, 1, none⟩] [] [] [] true false).containsEdges.length = 1) := by
  refine ⟨rfl, rfl, rfl⟩

/-- Membership in the first-occurrence dedup implies membership in the
input. -/
theorem firstOccAux_subset (l seen : List String) :
    ∀ x ∈ firstOccAux l seen, x ∈ l := by
  induction l generalizing seen with
  | nil => intro x hx; exact absurd hx (List.not_mem_nil x)
  | cons k rest ih =>
    intro x hx
    unfold firstOccAux at hx
    by_cases hk : k ∈ seen
    · rw [if_pos hk] at hx
      exact List.mem_cons_of_mem k (ih seen x hx)
    · rw [if_neg hk] at hx
      rcases List.mem_cons.mp hx with rfl | hx
      · exact List.mem_cons_self x rest
      · exact List.mem_cons_of_mem k (ih (k :: seen) x hx)

/-- C4 (amended): the helper `_format_triples_for_llm` excludes containment
edges: every triple it emits arises from an edge whose label is not
`'contains'`.  (The active render stage `_resolve_and_format_triples`
performs no such exclusion -- see the counterexample.) -/
theorem format_triples_for_llm_excludes_contains (nodes : List Node) (edges : List Edge) :
    ∀ t ∈ format_triples_for_llm_triples nodes edges,
      ∃ e ∈ edges, e.label ≠ "contains" ∧ t = mkLLMTriple nodes e := by
  intro t ht
  unfold format_triples_for_llm_triples at ht
  have ht' := firstOccAux_subset _ [] t ht
  obtain ⟨e, he, rfl⟩ := List.mem_map.mp ht'
  obtain ⟨hmem, hlbl⟩ := List.mem_filter.mp he
  refine ⟨e, hmem, ?_, rfl⟩
  intro hcon
  rw [hcon] at hlbl
  exact absurd hlbl (by decide)

/-- Witness for C4's amended theorem: the sole triple rendered from a
`cites` edge is traced back to that non-containment edge. -/
theorem format_triples_for_llm_excludes_contains_witness :
    ∃ e ∈ [(⟨"edges/r", "a", "b", "cites", [], "cites"⟩ : Edge)],
      e.label ≠ "contains" ∧
      mkLLMTriple [] ⟨"edges/r", "a", "b", "cites", [], "cites"⟩ = mkLLMTriple [] e :=
  format_triples_for_llm_excludes_contains []
    [⟨"edges/r", "a", "b", "cites", [], "cites"⟩]
    (mkLLMTriple [] ⟨"edges/r", "a", "b", "cites", [], "cites"⟩) (by decide)

/-- Counterexample to C4 as stated: the active render stage
`_resolve_and_format_triples` does render containment edges.  On a merged
result holding one paper node and one paper-to-entity `contains` edge
(with the node-resolution collaborator returning nothing), the rendered
output consists of exactly the `contains` triple. -/
theorem resolve_and_format_renders_contains_counterexample :
    "(\"papers/p1\") --[contains]--> (\"entities/e1\")" ∈
      resolveAndFormatTriplesList (fun _ => [])
        ⟨[⟨"papers/p1", "My Paper", [], "paper"⟩],
         [⟨"edges/x", "papers/p1", "entities/e1", "contains", [], "contains"⟩], 0⟩ ∧
    resolve_and_format_triples (fun _ => [])
        ⟨[⟨"papers/p1", "My Paper", [], "paper"⟩],
         [⟨"edges/x", "papers/p1", "entities/e1", "contains", [], "contains"⟩], 0⟩ =
      "(\"papers/p1\") --[contains]--> (\"entities/e1\")" := by
  constructor
  · decide
  · rfl

/-- C8: whenever any stage of the `process_query` pipeline raises, the
caller receives the well-formed degraded response -- confidence `0.0`,
empty citations, empty follow-up questions, the fixed apologetic answer --
and the error never propagates (the function is total and the cache is
left untouched). -/
theorem process_query_degrades_on_error (env : PipelineEnv) (cache : CacheState)
    (q : QueryCreate) (err : String)
    (h : processQueryBody env cache q = .error err) :
    process_query env cache q = (degradedResponse, cache) ∧
    (process_query env cache q).1.confidence = 0 ∧
    (process_query env cache q).1.citations = [] ∧
    (process_query env cache q).1.suggested_follow_up_questions = [] ∧
    (process_query env cache q).1.answer =
      "I\x27m sorry, I encountered an error while processing your query. Please try again later." := by
  have hmain : process_query env cache q = (degradedResponse, cache) := by
    unfold process_query
    rw [h]
  refine ⟨hmain, ?_, ?_, ?_, ?_⟩ <;> rw [hmain] <;> rfl

/-- Witness for C8: with the embedding stage failing on an empty cache, the
call returns the degraded response. -/
theorem process_query_degrades_on_error_witness :
    process_query sampleEnvEmbedFails emptyCache sampleQuery =
      (degradedResponse, emptyCache) :=
  (process_query_degrades_on_error sampleEnvEmbedFails emptyCache sampleQuery
    "boom" rfl).1

/-- Strings with equal code points are equal. -/
theorem strExt (s t : String) (h : s.data = t.data) : s = t := by
  cases s; cases t; exact congrArg String.mk h

/-- `Nat.digitChar` is injective below 10. -/
theorem digitCharInj10 : ∀ a < 10, ∀ b < 10,
    Nat.digitChar a = Nat.digitChar b → a = b := by
  decide

/-- Decimal digit characters are never a minus sign. -/
theorem digitChar_ne_minus : ∀ d < 10, Nat.digitChar d ≠ '-' := by
  decide

/-- Mapping `digitChar` over digit lists (all below 10) is injective. -/
theorem mapDigitChar_inj : ∀ (l₁ l₂ : List Nat), (∀ x ∈ l₁, x < 10) →
    (∀ x ∈ l₂, x < 10) → l₁.map Nat.digitChar = l₂.map Nat.digitChar → l₁ = l₂ := by
  intro l₁
  induction l₁ with
  | nil =>
    intro l₂ _ _ h
    cases l₂ with
    | nil => rfl
    | cons b bs => exact absurd h (by simp)
  | cons a as ih =>
    intro l₂ h₁ h₂ h
    cases l₂ with
    | nil => exact absurd h (by simp)
    | cons b bs =>
      simp only [List.map_cons, List.cons.injEq] at h
      have hab : a = b :=
        digitCharInj10 a (h₁ a (List.mem_cons_self a as)) b
          (h₂ b (List.mem_cons_self b bs)) h.1
      rw [hab, ih bs (fun x hx => h₁ x (List.mem_cons_of_mem a hx))
        (fun x hx => h₂ x (List.mem_cons_of_mem b hx)) h.2]

/-- Python's decimal rendering of a natural number is injective. -/
theorem pyStrNat_inj (m n : Nat) (h : pyStrNat m = pyStrNat n) : m = n := by
  have singleton_zero : ∀ k : Nat, k ≠ 0 →
      String.mk (((Nat.digits 10 k).map Nat.digitChar).reverse) ≠ "0" := by
    intro k hk hcon
    have hdata : ((Nat.digits 10 k).map Nat.digitChar).reverse = ['0'] :=
      congrArg String.data hcon
    have hmap : (Nat.digits 10 k).map Nat.digitChar = ['0'] := by
      have := congrArg List.reverse hdata
      simpa using this
    have hdig : Nat.digits 10 k = [0] := by
      have h10 : ∀ x ∈ Nat.digits 10 k, x < 10 :=
        fun x hx => Nat.digits_lt_base (by norm_num) hx
      have : Nat.digits 10 k = [0] :=
        mapDigitChar_inj (Nat.digits 10 k) [0] h10 (by simp) (by simpa using hmap)
      exact this
    have := Nat.ofDigits_digits 10 k
    rw [hdig] at this
    simp [Nat.ofDigits] at this
    exact hk this.symm
  unfold pyStrNat at h
  by_cases hm : m = 0 <;> by_cases hn : n = 0
  · rw [hm, hn]
  · rw [if_pos hm, if_neg hn] at h
    exact absurd h.symm (singleton_zero n hn)
  · rw [if_neg hm, if_pos hn] at h
    exact absurd h (singleton_zero m hm)
  · rw [if_neg hm, if_neg hn] at h
    have hdata : ((Nat.digits 10 m).map Nat.digitChar).reverse =
        ((Nat.digits 10 n).map Nat.digitChar).reverse := congrArg String.data h
    have hmap := List.reverse_injective hdata
    have hdig : Nat.digits 10 m = Nat.digits 10 n :=
      mapDigitChar_inj _ _ (fun x hx => Nat.digits_lt_base (by norm_num) hx)
        (fun x hx => Nat.digits_lt_base (by norm_num) hx) hmap
    exact Nat.digits_inj_iff.mp hdig

/-- A rendered natural number never contains a minus sign. -/
theorem minus_not_mem_pyStrNat (n : Nat) : '-' ∉ (pyStrNat n).data := by
  unfold pyStrNat
  by_cases hn : n = 0
  · rw [if_pos hn]; decide
  · rw [if_neg hn]
    intro hmem
    rw [List.mem_reverse] at hmem
    obtain ⟨d, hd, heq⟩ := List.mem_map.mp hmem
    exact digitChar_ne_minus d (Nat.digits_lt_base (by norm_num) hd) heq

/-- Python's decimal rendering of an integer is injective. -/
theorem pyStrInt_inj (i j : Int) (h : pyStrInt i = pyStrInt j) : i = j := by
  unfold pyStrInt at h
  by_cases hi : i < 0 <;> by_cases hj : j < 0
  · rw [if_pos hi, if_pos hj] at h
    have hdata := congrArg String.data h
    rw [strDataAppend, strDataAppend] at hdata
    have habs : i.natAbs = j.natAbs :=
      pyStrNat_inj _ _ (strExt _ _ (List.append_cancel_left hdata))
    omega
  · rw [if_pos hi, if_neg hj] at h
    exfalso
    have hdata := congrArg String.data h
    rw [strDataAppend] at hdata
    exact minus_not_mem_pyStrNat j.toNat
      (hdata ▸ List.mem_append_left _ (by decide))
  · rw [if_neg hi, if_pos hj] at h
    exfalso
    have hdata := congrArg String.data h
    rw [strDataAppend] at hdata
    exact minus_not_mem_pyStrNat i.toNat
      (hdata.symm ▸ List.mem_append_left _ (by decide))
  · rw [if_neg hi, if_neg hj] at h
    have := pyStrNat_inj _ _ h
    omega

/-- Distinct Python hash values always give distinct cache keys. -/
theorem mkCacheKey_hash_separation (h : String → Int) (u t₁ t₂ : String)
    (hne : h t₁ ≠ h t₂) : mkCacheKey h u t₁ ≠ mkCacheKey h u t₂ := by
  intro he
  apply hne
  unfold mkCacheKey at he
  have hdata := congrArg String.data he
  rw [strDataAppend, strDataAppend, strDataAppend, strDataAppend,
    strDataAppend, strDataAppend] at hdata
  exact pyStrInt_inj _ _ (strExt _ _ (List.append_cancel_left hdata))

/-- Inverting one `Except` bind on a successful run. -/
theorem except_bind_ok {α β : Type} (x : Except String α) (f : α → Except String β)
    (b : β) (h : x.bind f = .ok b) : ∃ a, x = .ok a ∧ f a = .ok b := by
  cases x with
  | ok a => exact ⟨a, rfl, h⟩
  | error e => exact absurd h (by simp [Except.bind])

/-- A successful cache-miss run of the pipeline body stores the serialized
response under this query's cache key. -/
theorem processQueryBody_ok_sets_cache (env : PipelineEnv) (cache : CacheState)
    (q : QueryCreate) (r : QueryResponse) (c' : CacheState)
    (hmiss : cache (mkCacheKey env.pyHash q.user_id q.query_text) = none)
    (hok : processQueryBody env cache q = .ok (r, c')) :
    c' (mkCacheKey env.pyHash q.user_id q.query_text) = some (env.ser r) := by
  unfold processQueryBody at hok
  simp only [hmiss] at hok
  obtain ⟨emb, hemb, hok⟩ := except_bind_ok _ _ _ hok
  obtain ⟨ur, hur, hok⟩ := except_bind_ok _ _ _ hok
  obtain ⟨pr, hpr, hok⟩ := except_bind_ok _ _ _ hok
  obtain ⟨ctx, hctx, hok⟩ := except_bind_ok _ _ _ hok
  obtain ⟨u1, hconn, hok⟩ := except_bind_ok _ _ _ hok
  obtain ⟨ans, hans, hok⟩ := except_bind_ok _ _ _ hok
  cases hset : env.setErr with
  | some e =>
    rw [hset] at hok
    exact absurd hok (by simp)
  | none =>
    rw [hset] at hok
    have hpair := Except.ok.inj hok
    have hr : _ = r := congrArg Prod.fst hpair
    have hc : _ = c' := congrArg Prod.snd hpair
    rw [← hc, ← hr]
    simp [cacheSet]

/-- A cache hit deserializes and returns at once, leaving the cache
unchanged. -/
theorem process_query_cache_hit (env : PipelineEnv) (cache : CacheState)
    (q : QueryCreate) (v : String) (r : QueryResponse)
    (hhit : cache (mkCacheKey env.pyHash q.user_id q.query_text) = some v)
    (hdeser : env.deser v = .ok r) :
    process_query env cache q = (r, cache) := by
  unfold process_query processQueryBody
  simp only [hhit, hdeser]
  rfl

/-- C9 (amended): the response cache round-trips -- a successful cache-miss
call stores the serialized response under the key computed from
`(user_id, hash(query_text))`, and an immediately following call with the
same pair (same per-process hash, coherent serializer) returns the very
same response from the cache, short-circuiting every other stage (the
second call's other collaborators are arbitrary).  Moreover distinct hash
values always give distinct keys, so a different `query_text` can hit the
same cache entry only when its 64-bit Python hash collides (the original
claim's "never" is refuted by the counterexample). -/
theorem cache_roundtrip_and_key_separation :
    (∀ (env env₂ : PipelineEnv) (cache : CacheState) (q : QueryCreate)
        (r : QueryResponse) (c' : CacheState),
      cache (mkCacheKey env.pyHash q.user_id q.query_text) = none →
      processQueryBody env cache q = .ok (r, c') →
      env₂.pyHash q.query_text = env.pyHash q.query_text →
      env₂.deser (env.ser r) = .ok r →
      process_query env₂ c' q = (r, c')) ∧
    (∀ (h : String → Int) (u t₁ t₂ : String),
      h t₁ ≠ h t₂ → mkCacheKey h u t₁ ≠ mkCacheKey h u t₂) := by
  constructor
  · intro env env₂ cache q r c' hmiss hok hhash hdeser
    have hstore := processQueryBody_ok_sets_cache env cache q r c' hmiss hok
    have hkey : mkCacheKey env₂.pyHash q.user_id q.query_text =
        mkCacheKey env.pyHash q.user_id q.query_text := by
      unfold mkCacheKey
      rw [hhash]
    exact process_query_cache_hit env₂ c' q (env.ser r) r
      (by rw [hkey]; exact hstore) hdeser
  · exact fun h u t₁ t₂ => mkCacheKey_hash_separation h u t₁ t₂

/-- Witness for C9: a concrete store-then-retrieve run returns the stored
response unchanged, and two texts with different hash values get
different keys. -/
theorem cache_roundtrip_and_key_separation_witness :
    process_query sampleEnvAllOk
      (cacheSet (mkCacheKey (fun _ => 0) "u" "hello") "blob" emptyCache) sampleQuery =
      (sampleOkResponse,
       cacheSet (mkCacheKey (fun _ => 0) "u" "hello") "blob" emptyCache) ∧
    mkCacheKey (fun s => (s.data.length : Int)) "u" "a" ≠
      mkCacheKey (fun s => (s.data.length : Int)) "u" "ab" :=
  ⟨cache_roundtrip_and_key_separation.1 sampleEnvAllOk sampleEnvAllOk emptyCache
      sampleQuery sampleOkResponse
      (cacheSet (mkCacheKey (fun _ => 0) "u" "hello") "blob" emptyCache)
      rfl rfl rfl rfl,
   cache_roundtrip_and_key_separation.2 (fun s => (s.data.length : Int)) "u" "a" "ab"
      (by decide)⟩

/-- Counterexample to C9 as stated: it is not true that every function the
bounded (64-bit) Python string hash may denote gives distinct cache keys
to distinct query texts -- key equality can only track hash equality, and
a hash into a bounded range cannot separate all strings (witnessed here by
a collapsing hash consistent with the bound). -/
theorem cache_key_not_injective_counterexample :
    ¬ (∀ h : String → Int, (∀ s, (h s).natAbs < 2 ^ 63) →
        ∀ u t₁ t₂ : String, t₁ ≠ t₂ →
          mkCacheKey h u t₁ ≠ mkCacheKey h u t₂) := by
  intro hclaim
  refine hclaim (fun _ => 0) (fun s => ?_) "u" "a" "b" (by decide) rfl
  show (0 : Int).natAbs < 2 ^ 63
  decide
